import Mathlib

/-!
Verification of the blackjack game core (`blackjack_game/__init__.py`).

The Python module is embedded shallowly:
* `Card` mirrors the 13-symbol tuple `CARDS`; `CARD_VALUES` mirrors the value table.
* `PlayerHand` and `PlayerGame` mirror the two classes, with their mutable
  fields as structure fields; mutating methods become functions returning the
  updated structure.  Methods that index `self.hands[self.current_hand_index]`
  (which can raise `IndexError` in Python) return `Option`, with `none` for the
  out-of-bounds case.
* Randomness (`draw_card`) is determinized: every operation that draws takes
  the drawn card(s) as explicit arguments.
* Python floats (`bet`, `score`) are modelled as rationals.

The three near-identical total loops in the source (`PlayerHand.check_bust`,
`PlayerHand.calculate_value`, `PlayerGame.calculate_dealer_value`) are embedded
as three separate definitions, so that their agreement is a theorem rather
than an artifact of sharing one definition.
-/

/-- The 13 card symbols of `CARDS = ('2',...,'10','J','Q','K','A')`. -/
inductive Card where
  | n2 | n3 | n4 | n5 | n6 | n7 | n8 | n9 | n10
  | J | Q | K | A
deriving DecidableEq

/-- The value table `CARD_VALUES`; the ace is entered as 11 ("A默认为11"). -/
def CARD_VALUES : Card → Nat
  | .n2 => 2 | .n3 => 3 | .n4 => 4 | .n5 => 5 | .n6 => 6
  | .n7 => 7 | .n8 => 8 | .n9 => 9 | .n10 => 10
  | .J => 10 | .Q => 10 | .K => 10 | .A => 11

/-- The `for card in self.cards` accumulation loop of `calculate_value`:
running `(total, ace_count)` pair, aces add 11 and bump the count. -/
def tallyCV (cards : List Card) : Nat × Nat :=
  cards.foldl
    (fun acc card =>
      if card = Card.A then (acc.1 + 11, acc.2 + 1)
      else (acc.1 + CARD_VALUES card, acc.2))
    (0, 0)

/-- The `while total > 21 and ace_count` reduction loop of `calculate_value`:
subtract 10 per ace while the total exceeds 21. -/
def reduceAcesCV : Nat → Nat → Nat
  | total, 0 => total
  | total, a + 1 => if 21 < total then reduceAcesCV (total - 10) a else total

/-- `PlayerHand.calculate_value`, as a function of the card list. -/
def calculate_value (cards : List Card) : Nat :=
  reduceAcesCV (tallyCV cards).1 (tallyCV cards).2

/-- The accumulation loop of `PlayerHand.check_bust` (duplicate of the one in
`calculate_value`, kept separate to mirror the source). -/
def tallyCB (cards : List Card) : Nat × Nat :=
  cards.foldl
    (fun acc card =>
      if card = Card.A then (acc.1 + 11, acc.2 + 1)
      else (acc.1 + CARD_VALUES card, acc.2))
    (0, 0)

/-- The reduction loop of `PlayerHand.check_bust`. -/
def reduceAcesCB : Nat → Nat → Nat
  | total, 0 => total
  | total, a + 1 => if 21 < total then reduceAcesCB (total - 10) a else total

/-- The total computed inside `PlayerHand.check_bust` before the
`self.busted = total > 21` assignment. -/
def checkBustTotal (cards : List Card) : Nat :=
  reduceAcesCB (tallyCB cards).1 (tallyCB cards).2

/-- The accumulation loop of `PlayerGame.calculate_dealer_value`. -/
def tallyD (cards : List Card) : Nat × Nat :=
  cards.foldl
    (fun acc card =>
      if card = Card.A then (acc.1 + 11, acc.2 + 1)
      else (acc.1 + CARD_VALUES card, acc.2))
    (0, 0)

/-- The reduction loop of `PlayerGame.calculate_dealer_value`. -/
def reduceAcesD : Nat → Nat → Nat
  | total, 0 => total
  | total, a + 1 => if 21 < total then reduceAcesD (total - 10) a else total

/-- The total computed inside `PlayerGame.calculate_dealer_value`. -/
def dealerTotal (cards : List Card) : Nat :=
  reduceAcesD (tallyD cards).1 (tallyD cards).2

/-- The `PlayerHand` class: card list, bet multiplier, and status flags. -/
structure PlayerHand where
  cards : List Card
  bet : ℚ
  stand : Bool
  busted : Bool
  doubled : Bool
  surrendered : Bool
  is_split : Bool
deriving DecidableEq

/-- `PlayerHand.__init__(cards, bet=1.0, is_split=False)`: all flags start false. -/
def PlayerHand.init (cards : List Card) (bet : ℚ := 1) (is_split : Bool := false) :
    PlayerHand :=
  ⟨cards, bet, false, false, false, false, is_split⟩

/-- `PlayerHand.check_bust`: recompute `busted` from the current cards. -/
def PlayerHand.check_bust (h : PlayerHand) : PlayerHand :=
  { h with busted := decide (21 < checkBustTotal h.cards) }

/-- `PlayerHand.add_card`: append the card, then `check_bust`. -/
def PlayerHand.add_card (h : PlayerHand) (card : Card) : PlayerHand :=
  PlayerHand.check_bust { h with cards := h.cards ++ [card] }

/-- `PlayerHand.is_blackjack`: exactly two cards, not from a split, total 21. -/
def PlayerHand.is_blackjack (h : PlayerHand) : Bool :=
  h.cards.length == 2 && !h.is_split && calculate_value h.cards == 21

/-- `PlayerHand.is_five_dragons`: at least five cards and not busted. -/
def PlayerHand.is_five_dragons (h : PlayerHand) : Bool :=
  decide (5 ≤ h.cards.length) && !h.busted

/-- The `PlayerGame` class: per-player round state. -/
structure PlayerGame where
  player : String
  hands : List PlayerHand
  dealer_hand : List Card
  current_hand_index : Nat
  score : ℚ
  in_game : Bool
  dealer_value : Nat
  dealer_busted : Bool
deriving DecidableEq

/-- `PlayerGame.__init__(player)`. -/
def PlayerGame.init (player : String) : PlayerGame :=
  ⟨player, [], [], 0, 0, false, 0, false⟩

/-- `PlayerGame.get_current_hand`: `self.hands[self.current_hand_index]`;
`none` models Python's `IndexError` on an out-of-range index. -/
def PlayerGame.get_current_hand (g : PlayerGame) : Option PlayerHand :=
  g.hands[g.current_hand_index]?

/-- `PlayerGame.start_new_round`, determinized: the four draws of the deal
loop are, in draw order, `p1 d1 p2 d2` (each iteration deals one card to the
player then one to the dealer).  A dealt blackjack is auto-stood. -/
def PlayerGame.start_new_round (g : PlayerGame) (p1 d1 p2 d2 : Card) : PlayerGame :=
  let h0 := PlayerHand.add_card (PlayerHand.add_card (PlayerHand.init []) p1) p2
  let h1 := if PlayerHand.is_blackjack h0 then { h0 with stand := true } else h0
  { g with
      hands := [h1]
      dealer_hand := [d1, d2]
      current_hand_index := 0
      in_game := true }

/-- `PlayerGame.hit`, determinized with the drawn card `c`: draw into the
current hand when it is not standing, busted, or surrendered; auto-stand a
five-card unbusted hand. -/
def PlayerGame.hit (g : PlayerGame) (c : Card) : Option PlayerGame :=
  match g.hands[g.current_hand_index]? with
  | none => none
  | some hand =>
    if !hand.stand && !hand.busted && !hand.surrendered then
      let hand1 := PlayerHand.add_card hand c
      let hand2 :=
        if decide (5 ≤ hand1.cards.length) && !hand1.busted then
          { hand1 with stand := true }
        else hand1
      some { g with hands := g.hands.set g.current_hand_index hand2 }
    else some g

/-- `PlayerGame.stand` (the player action, not the flag). -/
def PlayerGame.stand (g : PlayerGame) : Option PlayerGame :=
  match g.hands[g.current_hand_index]? with
  | none => none
  | some hand =>
    if !hand.busted && !hand.surrendered then
      some { g with hands := g.hands.set g.current_hand_index { hand with stand := true } }
    else some g

/-- `PlayerGame.double_down`, determinized with the drawn card `c`.  Returns
the updated game and the method's boolean result. -/
def PlayerGame.double_down (g : PlayerGame) (c : Card) : Option (PlayerGame × Bool) :=
  match g.hands[g.current_hand_index]? with
  | none => none
  | some hand =>
    if !hand.stand && !hand.busted && !hand.surrendered && !hand.doubled &&
        !PlayerHand.is_blackjack hand then
      let hand1 := PlayerHand.add_card { hand with bet := hand.bet * 2, doubled := true } c
      let hand2 := { hand1 with stand := true }
      some ({ g with hands := g.hands.set g.current_hand_index hand2 }, true)
    else some (g, false)

/-- `PlayerGame.split`, determinized with the two drawn cards `c1 c2`:
legal when the current hand has exactly two value-equal cards and
`len(self.hands) < 4`; the first child replaces the current slot and the
second is appended, both flagged `is_split` and given one extra card. -/
def PlayerGame.split (g : PlayerGame) (c1 c2 : Card) : Option (PlayerGame × Bool) :=
  match g.hands[g.current_hand_index]? with
  | none => none
  | some hand =>
    match hand.cards with
    | [card1, card2] =>
      if decide (g.hands.length < 4) && (CARD_VALUES card1 == CARD_VALUES card2) then
        let new_hand1 := PlayerHand.add_card (PlayerHand.init [card1] hand.bet true) c1
        let new_hand2 := PlayerHand.add_card (PlayerHand.init [card2] hand.bet true) c2
        some ({ g with hands := (g.hands.set g.current_hand_index new_hand1) ++ [new_hand2] },
              true)
      else some (g, false)
    | _ => some (g, false)

/-- `PlayerGame.surrender`: legal with exactly two cards, not standing, not
busted; sets both `surrendered` and `stand`. -/
def PlayerGame.surrender (g : PlayerGame) : Option (PlayerGame × Bool) :=
  match g.hands[g.current_hand_index]? with
  | none => none
  | some hand =>
    if decide (hand.cards.length = 2) && !hand.stand && !hand.busted then
      let hand1 := { hand with surrendered := true, stand := true }
      some ({ g with hands := g.hands.set g.current_hand_index hand1 }, true)
    else some (g, false)

/-- `PlayerGame.calculate_dealer_value`: recompute and cache the dealer's
total and bust flag. -/
def PlayerGame.calculate_dealer_value (g : PlayerGame) : PlayerGame :=
  { g with
      dealer_value := dealerTotal g.dealer_hand
      dealer_busted := decide (21 < dealerTotal g.dealer_hand) }

/-- The `while not self.dealer_busted and self.dealer_value < 17` body of
`dealer_play`, determinized over the list of upcoming draws. -/
def dealerLoop (g : PlayerGame) : List Card → PlayerGame
  | [] => g
  | c :: rest =>
    if !g.dealer_busted && decide (g.dealer_value < 17) then
      dealerLoop
        (PlayerGame.calculate_dealer_value { g with dealer_hand := g.dealer_hand ++ [c] })
        rest
    else g

/-- `PlayerGame.dealer_play`, determinized over the list of upcoming draws:
precompute the dealer value, then draw while under 17 and not busted. -/
def PlayerGame.dealer_play (g : PlayerGame) (draws : List Card) : PlayerGame :=
  dealerLoop (PlayerGame.calculate_dealer_value g) draws

/-- The per-hand body of the settlement loop in `settle_round`, acting on the
running `round_score` accumulator. -/
def settleStep (dealer_busted : Bool) (dealer_value : Nat) (acc : ℚ)
    (hand : PlayerHand) : ℚ :=
  if hand.surrendered then acc - hand.bet * 0.5
  else if hand.busted then acc - hand.bet
  else if PlayerHand.is_five_dragons hand && !PlayerHand.is_blackjack hand then
    acc + hand.bet
  else if PlayerHand.is_blackjack hand then acc + hand.bet * 1.5
  else if dealer_busted then acc + hand.bet
  else
    let hand_value := calculate_value hand.cards
    if decide (dealer_value < hand_value) then acc + hand.bet
    else if decide (hand_value < dealer_value) then acc - hand.bet
    else acc

/-- `PlayerGame.settle_round`: fold the settlement step over the hands, add
the delta to the score, leave the game, and return the delta. -/
def PlayerGame.settle_round (g : PlayerGame) : PlayerGame × ℚ :=
  let round_score := g.hands.foldl (settleStep g.dealer_busted g.dealer_value) 0
  ({ g with score := g.score + round_score, in_game := false }, round_score)

/-! ### Arithmetic of the ace-aware total (proof-side auxiliaries) -/

/-- Proof-side auxiliary (not in the source): the value of a card with the
ace counted as 1. -/
def hardValue (c : Card) : Nat :=
  if c = Card.A then 1 else CARD_VALUES c

/-- Proof-side auxiliary: the hard total (every ace counted as 1). -/
def hardSum (l : List Card) : Nat :=
  (l.map hardValue).sum

theorem tallyCV_go (l : List Card) :
    ∀ t a : Nat,
      l.foldl
        (fun acc card =>
          if card = Card.A then (acc.1 + 11, acc.2 + 1)
          else (acc.1 + CARD_VALUES card, acc.2))
        (t, a) =
      (t + (l.map CARD_VALUES).sum, a + l.count Card.A) := by
  induction l with
  | nil => intro t a; simp
  | cons c l ih =>
    intro t a
    rw [List.foldl_cons]
    by_cases hc : c = Card.A
    · subst hc
      rw [if_pos rfl, ih]
      simp [List.count_cons, CARD_VALUES, Prod.ext_iff]
      omega
    · rw [if_neg hc, ih]
      have hbeq : (c == Card.A) = false := by simpa using hc
      simp [List.count_cons, hbeq, Prod.ext_iff]
      omega

theorem tallyCV_eq (l : List Card) :
    tallyCV l = ((l.map CARD_VALUES).sum, l.count Card.A) := by
  have h := tallyCV_go l 0 0
  simpa [tallyCV] using h

theorem sum_values_eq_hard (l : List Card) :
    (l.map CARD_VALUES).sum = hardSum l + 10 * l.count Card.A := by
  induction l with
  | nil => simp [hardSum]
  | cons c l ih =>
    by_cases hc : c = Card.A
    · subst hc
      simp [hardSum, List.count_cons, List.map_cons, List.sum_cons] at ih ⊢
      simp [CARD_VALUES, hardValue] at ih ⊢
      omega
    · have hbeq : ¬ (c == Card.A) = true := by simpa using hc
      simp [hardSum, List.count_cons, List.map_cons, List.sum_cons, hbeq, hardValue, hc] at ih ⊢
      omega

theorem reduceAcesCV_of_le (a : Nat) : ∀ t : Nat, t ≤ 21 → reduceAcesCV t a = t := by
  cases a with
  | zero => intro t _; rfl
  | succ a => intro t ht; simp [reduceAcesCV, Nat.not_lt.mpr ht]

theorem reduceAcesCV_of_hard_big :
    ∀ (a m : Nat), 21 < m → reduceAcesCV (m + 10 * a) a = m := by
  intro a
  induction a with
  | zero => intro m hm; simp [reduceAcesCV]
  | succ a ih =>
    intro m hm
    have hlt : 21 < m + 10 * (a + 1) := by omega
    have hsub : m + 10 * (a + 1) - 10 = m + 10 * a := by omega
    simp [reduceAcesCV, hlt, hsub, ih m hm]

theorem reduceAcesCV_of_hard_small :
    ∀ (a m : Nat), m ≤ 21 → reduceAcesCV (m + 10 * a) a ≤ 21 := by
  intro a
  induction a with
  | zero => intro m hm; simpa [reduceAcesCV] using hm
  | succ a ih =>
    intro m hm
    by_cases hlt : 21 < m + 10 * (a + 1)
    · have hsub : m + 10 * (a + 1) - 10 = m + 10 * a := by omega
      simp [reduceAcesCV, hlt, hsub, ih m hm]
    · simp [reduceAcesCV, hlt]; omega

theorem calculate_value_hard (l : List Card) :
    calculate_value l = reduceAcesCV (hardSum l + 10 * l.count Card.A) (l.count Card.A) := by
  simp [calculate_value, tallyCV_eq, sum_values_eq_hard]

/-- The total busts exactly when even the hard total (all aces as 1) busts. -/
theorem calculate_value_bust_iff (l : List Card) :
    21 < calculate_value l ↔ 21 < hardSum l := by
  rw [calculate_value_hard]
  constructor
  · intro h
    by_contra hle
    exact absurd (reduceAcesCV_of_hard_small _ _ (Nat.not_lt.mp hle)) (Nat.not_le.mpr h)
  · intro h
    rw [reduceAcesCV_of_hard_big _ _ h]
    exact h

theorem hardSum_append (l : List Card) (c : Card) :
    hardSum (l ++ [c]) = hardSum l + hardValue c := by
  simp [hardSum]

/-! ### The three total loops agree -/

theorem tallyCB_eq_tallyCV (l : List Card) : tallyCB l = tallyCV l := rfl

theorem tallyD_eq_tallyCV (l : List Card) : tallyD l = tallyCV l := rfl

theorem reduceAcesCB_eq_CV : ∀ a t : Nat, reduceAcesCB t a = reduceAcesCV t a := by
  intro a
  induction a with
  | zero => intro t; rfl
  | succ a ih =>
    intro t
    simp only [reduceAcesCB, reduceAcesCV]
    by_cases h : 21 < t <;> simp [h, ih]

theorem reduceAcesD_eq_CV : ∀ a t : Nat, reduceAcesD t a = reduceAcesCV t a := by
  intro a
  induction a with
  | zero => intro t; rfl
  | succ a ih =>
    intro t
    simp only [reduceAcesD, reduceAcesCV]
    by_cases h : 21 < t <;> simp [h, ih]

theorem checkBustTotal_eq (l : List Card) : checkBustTotal l = calculate_value l := by
  simp [checkBustTotal, calculate_value, tallyCB_eq_tallyCV, reduceAcesCB_eq_CV]

theorem dealerTotal_eq (l : List Card) : dealerTotal l = calculate_value l := by
  simp [dealerTotal, calculate_value, tallyD_eq_tallyCV, reduceAcesD_eq_CV]

/-! ### Claims about the value model -/

/-- C5: `is_blackjack` holds exactly for a 2-card, non-split hand totalling 21;
a fresh [A, K] is a blackjack, the same cards in a split-derived hand are not,
and [10, 10, A] totals 21 yet is not a blackjack. -/
theorem claim_C5_is_blackjack_iff :
    (∀ h : PlayerHand, PlayerHand.is_blackjack h = true ↔
      (h.cards.length = 2 ∧ h.is_split = false ∧ calculate_value h.cards = 21)) ∧
    calculate_value [Card.A, Card.K] = 21 ∧
    PlayerHand.is_blackjack (PlayerHand.init [Card.A, Card.K]) = true ∧
    PlayerHand.is_blackjack (PlayerHand.init [Card.A, Card.K] 1 true) = false ∧
    calculate_value [Card.n10, Card.n10, Card.A] = 21 ∧
    PlayerHand.is_blackjack (PlayerHand.init [Card.n10, Card.n10, Card.A]) = false := by
  refine ⟨?_, by decide, by decide, by decide, by decide, by decide⟩
  intro h
  simp [PlayerHand.is_blackjack, Bool.and_eq_true, Bool.not_eq_true', and_assoc]

/-- C6: `calculate_value` is the sum of `CARD_VALUES` (ace entered as 11)
reduced by 10 per counted ace while over 21; it depends only on the multiset
of ranks (permutation-invariant), recomputation is stable, and [A, A, 9]
totals 21. -/
theorem claim_C6_calculate_value_alg :
    (∀ l : List Card,
      calculate_value l = reduceAcesCV ((l.map CARD_VALUES).sum) (l.count Card.A)) ∧
    (∀ l₁ l₂ : List Card, l₁.Perm l₂ → calculate_value l₁ = calculate_value l₂) ∧
    (∀ l : List Card, calculate_value l = calculate_value l) ∧
    calculate_value [Card.A, Card.A, Card.n9] = 21 := by
  refine ⟨?_, ?_, fun l => rfl, by decide⟩
  · intro l
    rw [calculate_value, tallyCV_eq]
  · intro l₁ l₂ hp
    rw [calculate_value, calculate_value, tallyCV_eq, tallyCV_eq,
      (hp.map CARD_VALUES).sum_eq, hp.count_eq]

/-- C6 witness: the permutation-invariance clause applied to the concrete
permutation [A, K] ~ [K, A]. -/
theorem claim_C6_calculate_value_alg_witness :
    calculate_value [Card.A, Card.K] = calculate_value [Card.K, Card.A] :=
  claim_C6_calculate_value_alg.2.1 _ _ (by decide)

/-- C10: the three near-duplicate total loops agree: `check_bust` sets
`busted` exactly when `calculate_value` of the cards exceeds 21, and
`calculate_dealer_value` caches `calculate_value` of the dealer cards and the
corresponding bust flag. -/
theorem claim_C10_totals_agree :
    (∀ l : List Card,
      checkBustTotal l = calculate_value l ∧ dealerTotal l = calculate_value l) ∧
    (∀ h : PlayerHand,
      (PlayerHand.check_bust h).busted = decide (21 < calculate_value h.cards) ∧
      (PlayerHand.check_bust h).cards = h.cards) ∧
    (∀ g : PlayerGame,
      (PlayerGame.calculate_dealer_value g).dealer_value = calculate_value g.dealer_hand ∧
      (PlayerGame.calculate_dealer_value g).dealer_busted =
        decide (21 < calculate_value g.dealer_hand)) := by
  refine ⟨fun l => ⟨checkBustTotal_eq l, dealerTotal_eq l⟩, ?_, ?_⟩
  · intro h
    exact ⟨by simp [PlayerHand.check_bust, checkBustTotal_eq], rfl⟩
  · intro g
    exact ⟨by simp [PlayerGame.calculate_dealer_value, dealerTotal_eq],
           by simp [PlayerGame.calculate_dealer_value, dealerTotal_eq]⟩

/-! ### Settlement (C1) -/

/-- The per-hand settlement contribution as the specification states it:
surrender loses half the bet; else a bust loses the bet; else a five-card
unbusted non-blackjack hand wins the bet; else a blackjack wins 1.5 bets;
else a dealer bust wins the bet; else totals are compared, with equal totals
pushing.  Stated from the spec wording, to be compared with `settleStep`. -/
def specHandContribution (dealer_busted : Bool) (dealer_value : Nat)
    (hand : PlayerHand) : ℚ :=
  if hand.surrendered = true then -(hand.bet * 0.5)
  else if hand.busted = true then -hand.bet
  else if 5 ≤ hand.cards.length ∧ hand.busted = false ∧
      PlayerHand.is_blackjack hand = false then hand.bet
  else if PlayerHand.is_blackjack hand = true then hand.bet * 1.5
  else if dealer_busted = true then hand.bet
  else if dealer_value < calculate_value hand.cards then hand.bet
  else if calculate_value hand.cards < dealer_value then -hand.bet
  else 0

theorem settleStep_eq_spec (db : Bool) (dv : Nat) (acc : ℚ) (h : PlayerHand) :
    settleStep db dv acc h = acc + specHandContribution db dv h := by
  unfold settleStep specHandContribution PlayerHand.is_five_dragons
  cases hs : h.surrendered <;>
    cases hb : h.busted <;>
      cases hbj : PlayerHand.is_blackjack h <;>
        cases hdb : db <;>
          by_cases hl : 5 ≤ h.cards.length <;>
            by_cases h1 : dv < calculate_value h.cards <;>
              by_cases h2 : calculate_value h.cards < dv <;>
                simp [hs, hb, hbj, hdb, hl, h1, h2, sub_eq_add_neg]

theorem settle_foldl (db : Bool) (dv : Nat) :
    ∀ (l : List PlayerHand) (acc : ℚ),
      l.foldl (settleStep db dv) acc =
        acc + (l.map (specHandContribution db dv)).sum := by
  intro l
  induction l with
  | nil => intro acc; simp
  | cons h l ih =>
    intro acc
    rw [List.foldl_cons, settleStep_eq_spec, ih]
    simp [List.map_cons, List.sum_cons]
    ring

/-- C1: `settle_round` returns the sum of the per-hand contributions with the
stated priority (surrender, bust, five-card win, blackjack, dealer bust, then
total comparison with push on ties), adds that delta to the cumulative score,
and marks the round inactive, leaving all other round state unchanged. -/
theorem claim_C1_settle_round :
    ∀ g : PlayerGame,
      (PlayerGame.settle_round g).2 =
        (g.hands.map (specHandContribution g.dealer_busted g.dealer_value)).sum ∧
      (PlayerGame.settle_round g).1 =
        { g with
            score := g.score +
              (g.hands.map (specHandContribution g.dealer_busted g.dealer_value)).sum
            in_game := false } := by
  intro g
  have hdelta : (PlayerGame.settle_round g).2 =
      (g.hands.map (specHandContribution g.dealer_busted g.dealer_value)).sum := by
    simp [PlayerGame.settle_round, settle_foldl]
  refine ⟨hdelta, ?_⟩
  show { g with
      score := g.score + g.hands.foldl (settleStep g.dealer_busted g.dealer_value) 0
      in_game := false } = _
  rw [settle_foldl]
  simp

/-! ### The split cap (C2) -/

/-- A round dealt as two tens against dealer 2/3; the starting point for
exercising the split cap. -/
def capG0 : PlayerGame :=
  PlayerGame.start_new_round (PlayerGame.init "p") Card.n10 Card.n2 Card.n10 Card.n3

/-- Split the current hand, drawing a ten onto each child (so the current
hand stays a ten-pair), keeping the game unchanged if the split fails. -/
def splitTens (g : PlayerGame) : PlayerGame :=
  ((PlayerGame.split g Card.n10 Card.n10).map Prod.fst).getD g

def capG1 : PlayerGame := splitTens capG0

def capG2 : PlayerGame := splitTens capG1

def capG3 : PlayerGame := splitTens capG2

/-- C2 (code bug): the source comment and help text say "最多分4次" (at most
four splits, hence up to five hands), but `split` tests `len(self.hands) < 4`.
Starting from a dealt ten-pair, three splits succeed and reach four hands,
and the fourth split attempt fails even though the current hand is still an
equal-value pair, so the claimed 4-split/5-hand cap is unreachable. -/
theorem claim_C2_split_cap :
    PlayerGame.split capG0 Card.n10 Card.n10 = some (capG1, true) ∧
    PlayerGame.split capG1 Card.n10 Card.n10 = some (capG2, true) ∧
    PlayerGame.split capG2 Card.n10 Card.n10 = some (capG3, true) ∧
    capG3.hands.length = 4 ∧
    (PlayerGame.get_current_hand capG3).map PlayerHand.cards =
      some [Card.n10, Card.n10] ∧
    PlayerGame.split capG3 Card.n10 Card.n10 = some (capG3, false) :=
  ⟨rfl, rfl, rfl, rfl, rfl, rfl⟩

/-! ### Double down legality (C3) and effects (C7) -/

/-- A round dealt [2, 3] against dealer 7/8. -/
def gThree0 : PlayerGame :=
  PlayerGame.start_new_round (PlayerGame.init "p") Card.n2 Card.n7 Card.n3 Card.n8

/-- The same round after hitting a 4: the current hand is [2, 3, 4]. -/
def gThree1 : PlayerGame := (PlayerGame.hit gThree0 Card.n4).getD gThree0

/-- C3 counterexample: `double_down` succeeds on a three-card hand.  The
method checks no card count, so "success only with exactly 2 cards" is false:
after hitting, the current hand [2, 3, 4] can still be doubled. -/
theorem claim_C3_counterexample :
    PlayerGame.hit gThree0 Card.n4 = some gThree1 ∧
    (PlayerGame.get_current_hand gThree1).map (fun h => h.cards.length) = some 3 ∧
    (PlayerGame.double_down gThree1 Card.n5).map Prod.snd = some true :=
  ⟨rfl, rfl, rfl⟩

/-- C3 (amended): `double_down` succeeds iff the current hand is not
standing, not busted, not surrendered, not already doubled, and not a
blackjack — with no requirement on the number of cards; on failure the game
(hence the hand) is returned unchanged with result `false`. -/
theorem claim_C3_double_down_iff :
    ∀ (g : PlayerGame) (c : Card) (hand : PlayerHand),
      PlayerGame.get_current_hand g = some hand →
      (((PlayerGame.double_down g c).map Prod.snd = some true) ↔
        (hand.stand = false ∧ hand.busted = false ∧ hand.surrendered = false ∧
         hand.doubled = false ∧ PlayerHand.is_blackjack hand = false)) ∧
      (¬(hand.stand = false ∧ hand.busted = false ∧ hand.surrendered = false ∧
         hand.doubled = false ∧ PlayerHand.is_blackjack hand = false) →
        PlayerGame.double_down g c = some (g, false)) := by
  intro g c hand hget
  have hm : g.hands[g.current_hand_index]? = some hand := hget
  unfold PlayerGame.double_down
  rw [hm]
  by_cases h1 : hand.stand <;> by_cases h2 : hand.busted <;>
    by_cases h3 : hand.surrendered <;> by_cases h4 : hand.doubled <;>
      by_cases h5 : PlayerHand.is_blackjack hand = true <;>
        simp [h1, h2, h3, h4, h5]

/-- The current hand of `gThree1`, namely [2, 3, 4]. -/
def hand31 : PlayerHand :=
  (PlayerGame.get_current_hand gThree1).getD (PlayerHand.init [])

/-- C3 witness: the amended statement applied to the concrete three-card
round `gThree1`, whose current hand satisfies every flag condition. -/
theorem claim_C3_double_down_iff_witness :
    (((PlayerGame.double_down gThree1 Card.n5).map Prod.snd = some true) ↔
      (hand31.stand = false ∧ hand31.busted = false ∧ hand31.surrendered = false ∧
       hand31.doubled = false ∧ PlayerHand.is_blackjack hand31 = false)) ∧
    (¬(hand31.stand = false ∧ hand31.busted = false ∧ hand31.surrendered = false ∧
       hand31.doubled = false ∧ PlayerHand.is_blackjack hand31 = false) →
      PlayerGame.double_down gThree1 Card.n5 = some (gThree1, false)) :=
  claim_C3_double_down_iff gThree1 Card.n5 hand31 rfl

/-! ### Hit (C4) -/

/-- A hand [10, 9] about to hit. -/
def h4ex : PlayerHand := PlayerHand.init [Card.n10, Card.n9]

/-- A round whose single hand is [10, 9]. -/
def g4ex : PlayerGame :=
  { PlayerGame.init "p" with hands := [h4ex], in_game := true }

/-- `g4ex` after hitting a 5, which busts the hand (total 24). -/
def g4exAfter : PlayerGame := (PlayerGame.hit g4ex Card.n5).getD g4ex

/-- C4 counterexample: a draw that busts the hand does NOT set `stand`:
hitting 5 on [10, 9] leaves `busted = true` but `stand = false`, contradicting
"the hand transitions to standing (stand becomes true)" for the bust case. -/
theorem claim_C4_counterexample :
    PlayerGame.hit g4ex Card.n5 = some g4exAfter ∧
    (PlayerGame.get_current_hand g4exAfter).map PlayerHand.cards =
      some [Card.n10, Card.n9, Card.n5] ∧
    (PlayerGame.get_current_hand g4exAfter).map PlayerHand.busted = some true ∧
    (PlayerGame.get_current_hand g4exAfter).map PlayerHand.stand = some false :=
  ⟨rfl, rfl, rfl, rfl⟩

/-- C4 (amended): `hit` draws exactly one card into the current hand exactly
when that hand is not standing, not busted, and not surrendered (otherwise the
game is returned unchanged); if the draw brings the hand to 5 cards without
busting it transitions to standing, while if the draw busts the hand the
`busted` flag is set and `stand` is left false (the bust itself blocks any
further action). -/
theorem claim_C4_hit_spec :
    ∀ (g : PlayerGame) (c : Card) (hand : PlayerHand),
      PlayerGame.get_current_hand g = some hand →
      ((hand.stand = false ∧ hand.busted = false ∧ hand.surrendered = false →
        ∃ g' hand', PlayerGame.hit g c = some g' ∧
          PlayerGame.get_current_hand g' = some hand' ∧
          hand'.cards = hand.cards ++ [c] ∧
          hand'.busted = decide (21 < checkBustTotal (hand.cards ++ [c])) ∧
          (hand'.busted = false → 5 ≤ hand'.cards.length → hand'.stand = true) ∧
          (hand'.busted = true → hand'.stand = false)) ∧
      (¬(hand.stand = false ∧ hand.busted = false ∧ hand.surrendered = false) →
        PlayerGame.hit g c = some g)) := by
  intro g c hand hget
  have hm : g.hands[g.current_hand_index]? = some hand := hget
  have hlt : g.current_hand_index < g.hands.length := by
    rcases List.getElem?_eq_some.mp hm with ⟨hl, _⟩
    exact hl
  constructor
  · rintro ⟨h1, h2, h3⟩
    have hcond : (!hand.stand && !hand.busted && !hand.surrendered) = true := by
      simp [h1, h2, h3]
    by_cases hfive :
        (decide (5 ≤ (PlayerHand.add_card hand c).cards.length) &&
          !(PlayerHand.add_card hand c).busted) = true
    · let hand2 : PlayerHand := { PlayerHand.add_card hand c with stand := true }
      refine ⟨{ g with hands := g.hands.set g.current_hand_index hand2 },
          hand2, ?_, ?_, rfl, rfl, ?_, ?_⟩
      · unfold PlayerGame.hit
        rw [hm]
        simp only [hcond, if_pos, hfive, if_true]
      · show (g.hands.set g.current_hand_index _)[g.current_hand_index]? = _
        exact List.getElem?_set_eq_of_lt _ hlt
      · intro _ _
        rfl
      · intro hb
        have hb' : (PlayerHand.add_card hand c).busted = true := hb
        simp [hb'] at hfive
    · refine ⟨{ g with hands :=
            g.hands.set g.current_hand_index (PlayerHand.add_card hand c) },
          PlayerHand.add_card hand c, ?_, ?_, rfl, rfl, ?_, ?_⟩
      · unfold PlayerGame.hit
        rw [hm]
        simp only [hcond, if_true]
        rw [if_neg (by simpa using hfive)]
      · show (g.hands.set g.current_hand_index _)[g.current_hand_index]? = _
        exact List.getElem?_set_eq_of_lt _ hlt
      · intro hnb hlen
        exfalso
        apply hfive
        simp [hnb, hlen]
      · intro _
        show hand.stand = false
        exact h1
  · intro hnot
    have hcond : (!hand.stand && !hand.busted && !hand.surrendered) = false := by
      cases a : hand.stand <;> cases b : hand.busted <;> cases d : hand.surrendered <;>
        simp_all
    unfold PlayerGame.hit
    rw [hm]
    simp [hcond]

/-- C4 witness: the amended statement applied to the bust case [10, 9] + 5. -/
theorem claim_C4_hit_spec_witness :
    ∃ g' hand', PlayerGame.hit g4ex Card.n5 = some g' ∧
      PlayerGame.get_current_hand g' = some hand' ∧
      hand'.cards = [Card.n10, Card.n9, Card.n5] ∧
      hand'.busted = decide (21 < checkBustTotal [Card.n10, Card.n9, Card.n5]) ∧
      (hand'.busted = false → 5 ≤ hand'.cards.length → hand'.stand = true) ∧
      (hand'.busted = true → hand'.stand = false) :=
  (claim_C4_hit_spec g4ex Card.n5 h4ex rfl).1 ⟨rfl, rfl, rfl⟩

/-- C7: when `double_down` succeeds it doubles the bet, sets `doubled`,
appends exactly one drawn card, and forces `stand := true` unconditionally —
in particular also when the drawn card busts the hand. -/
theorem claim_C7_double_down_effects :
    ∀ (g : PlayerGame) (c : Card) (hand : PlayerHand),
      PlayerGame.get_current_hand g = some hand →
      hand.stand = false → hand.busted = false → hand.surrendered = false →
      hand.doubled = false → PlayerHand.is_blackjack hand = false →
      ∃ g' hand', PlayerGame.double_down g c = some (g', true) ∧
        PlayerGame.get_current_hand g' = some hand' ∧
        hand'.bet = hand.bet * 2 ∧
        hand'.doubled = true ∧
        hand'.cards = hand.cards ++ [c] ∧
        hand'.stand = true ∧
        hand'.busted = decide (21 < checkBustTotal (hand.cards ++ [c])) := by
  intro g c hand hget h1 h2 h3 h4 h5
  have hm : g.hands[g.current_hand_index]? = some hand := hget
  have hlt : g.current_hand_index < g.hands.length := by
    rcases List.getElem?_eq_some.mp hm with ⟨hl, _⟩
    exact hl
  let hand1 : PlayerHand := { hand with bet := hand.bet * 2, doubled := true }
  let hand2 : PlayerHand := { PlayerHand.add_card hand1 c with stand := true }
  refine ⟨{ g with hands := g.hands.set g.current_hand_index hand2 },
      hand2, ?_, ?_, rfl, rfl, rfl, rfl, rfl⟩
  · have hcond : (!hand.stand && !hand.busted && !hand.surrendered && !hand.doubled &&
        !PlayerHand.is_blackjack hand) = true := by
      simp [h1, h2, h3, h4, h5]
    unfold PlayerGame.double_down
    rw [hm]
    simp only [hcond, if_true]
  · show (g.hands.set g.current_hand_index hand2)[g.current_hand_index]? = some hand2
    exact List.getElem?_set_eq_of_lt _ hlt

/-- C7 witness: doubling [10, 9] with a drawn 10 doubles the bet, appends the
card, and stands even though the hand busts at 29. -/
theorem claim_C7_double_down_effects_witness :
    ∃ g' hand', PlayerGame.double_down g4ex Card.n10 = some (g', true) ∧
      PlayerGame.get_current_hand g' = some hand' ∧
      hand'.bet = h4ex.bet * 2 ∧
      hand'.doubled = true ∧
      hand'.cards = [Card.n10, Card.n9, Card.n10] ∧
      hand'.stand = true ∧
      hand'.busted = true :=
  claim_C7_double_down_effects g4ex Card.n10 h4ex rfl rfl rfl rfl rfl rfl

/-! ### Split legality and effects (C8) -/

/-- C8: for a current hand [a, b] in a round under the split cap, `split`
succeeds iff `a` and `b` have equal numeric value; on success the current
slot is replaced by a split-flagged hand [a, c1] and a split-flagged hand
[b, c2] is appended, both inheriting the original bet; on a value mismatch
the game is returned unchanged with result `false`. -/
theorem claim_C8_split_spec :
    ∀ (g : PlayerGame) (c1 c2 a b : Card) (hand : PlayerHand),
      PlayerGame.get_current_hand g = some hand →
      hand.cards = [a, b] →
      g.hands.length < 4 →
      (((PlayerGame.split g c1 c2).map Prod.snd = some true) ↔
        CARD_VALUES a = CARD_VALUES b) ∧
      (CARD_VALUES a = CARD_VALUES b →
        ∃ g' nh1 nh2, PlayerGame.split g c1 c2 = some (g', true) ∧
          g'.hands = (g.hands.set g.current_hand_index nh1) ++ [nh2] ∧
          nh1.cards = [a, c1] ∧ nh1.bet = hand.bet ∧ nh1.is_split = true ∧
          nh2.cards = [b, c2] ∧ nh2.bet = hand.bet ∧ nh2.is_split = true) ∧
      (CARD_VALUES a ≠ CARD_VALUES b →
        PlayerGame.split g c1 c2 = some (g, false)) := by
  intro g c1 c2 a b hand hget hcards hlen
  have hm : g.hands[g.current_hand_index]? = some hand := hget
  by_cases hv : CARD_VALUES a = CARD_VALUES b
  · have hsucc : PlayerGame.split g c1 c2 =
        some ({ g with hands := (g.hands.set g.current_hand_index
            (PlayerHand.add_card (PlayerHand.init [a] hand.bet true) c1)) ++
            [PlayerHand.add_card (PlayerHand.init [b] hand.bet true) c2] }, true) := by
      unfold PlayerGame.split
      rw [hm]
      simp only [hcards]
      simp [hlen, hv]
    refine ⟨?_, ?_, ?_⟩
    · rw [hsucc]
      simp [hv]
    · intro _
      exact ⟨_, _, _, hsucc, rfl, rfl, rfl, rfl, rfl, rfl, rfl⟩
    · intro hne
      exact absurd hv hne
  · have hfail : PlayerGame.split g c1 c2 = some (g, false) := by
      unfold PlayerGame.split
      rw [hm]
      simp only [hcards]
      simp [hv]
    refine ⟨?_, ?_, ?_⟩
    · rw [hfail]
      simp [hv]
    · intro h
      exact absurd h hv
    · intro _
      exact hfail

/-- A round dealt [10, K] (equal values, different ranks). -/
def g8ex : PlayerGame :=
  PlayerGame.start_new_round (PlayerGame.init "p") Card.n10 Card.n2 Card.K Card.n3

/-- The current hand of `g8ex`, namely [10, K]. -/
def h8ex : PlayerHand := (PlayerGame.get_current_hand g8ex).getD (PlayerHand.init [])

/-- A round dealt [10, 9] (unequal values). -/
def g8ex9 : PlayerGame :=
  PlayerGame.start_new_round (PlayerGame.init "p") Card.n10 Card.n2 Card.n9 Card.n3

/-- The current hand of `g8ex9`, namely [10, 9]. -/
def h8ex9 : PlayerHand := (PlayerGame.get_current_hand g8ex9).getD (PlayerHand.init [])

/-- C8 witness: splitting [10, K] succeeds (value-equality, not rank-equality)
and splitting [10, 9] fails, both via the split specification. -/
theorem claim_C8_split_spec_witness :
    (PlayerGame.split g8ex Card.n4 Card.n5).map Prod.snd = some true ∧
    PlayerGame.split g8ex9 Card.n4 Card.n5 = some (g8ex9, false) :=
  ⟨(claim_C8_split_spec g8ex Card.n4 Card.n5 Card.n10 Card.K h8ex rfl rfl
      (by decide)).1.mpr rfl,
   (claim_C8_split_spec g8ex9 Card.n4 Card.n5 Card.n10 Card.n9 h8ex9 rfl rfl
      (by decide)).2.2 (by decide)⟩

/-! ### Flag monotonicity (C9) -/

/-- Once the hard total busts, appending a card keeps it busted. -/
theorem checkBustTotal_append_bust (l : List Card) (c : Card) :
    21 < checkBustTotal l → 21 < checkBustTotal (l ++ [c]) := by
  intro hbust
  rw [checkBustTotal_eq] at hbust ⊢
  rw [calculate_value_bust_iff] at hbust ⊢
  rw [hardSum_append]
  omega

/-- Pointwise ordering of the four status flags: every flag set in `h`
remains set in h'. -/
def flagLe (h h' : PlayerHand) : Prop :=
  (h.stand = true → h'.stand = true) ∧
  (h.busted = true → h'.busted = true) ∧
  (h.doubled = true → h'.doubled = true) ∧
  (h.surrendered = true → h'.surrendered = true)

theorem flagLe_refl (h : PlayerHand) : flagLe h h := ⟨id, id, id, id⟩

/-- If an update touches only slot `i`, and the slot update is flag-monotone,
then every lookup is flag-monotone. -/
theorem flagLe_set (l : List PlayerHand) (i : Nat) (x x' : PlayerHand)
    (hx : l[i]? = some x) (hxx : flagLe x x') :
    ∀ (j : Nat) (h h' : PlayerHand),
      l[j]? = some h → (l.set i x')[j]? = some h' → flagLe h h' := by
  intro j h h' hj hj'
  by_cases hij : j = i
  · subst hij
    have hlt : j < l.length := by
      rcases List.getElem?_eq_some.mp hj with ⟨hl, _⟩
      exact hl
    rw [List.getElem?_set_eq_of_lt _ hlt] at hj'
    obtain rfl : x' = h' := Option.some.inj hj'
    rw [hx] at hj
    obtain rfl : x = h := Option.some.inj hj
    exact hxx
  · rw [List.getElem?_set_ne (Ne.symm hij)] at hj'
    rw [hj] at hj'
    obtain rfl : h = h' := Option.some.inj hj'
    exact flagLe_refl h

/-- The dealer loop never touches the player hands. -/
theorem dealerLoop_hands : ∀ (draws : List Card) (g : PlayerGame),
    (dealerLoop g draws).hands = g.hands := by
  intro draws
  induction draws with
  | nil => intro g; rfl
  | cons c rest ih =>
    intro g
    unfold dealerLoop
    by_cases hc : (!g.dealer_busted && decide (g.dealer_value < 17)) = true
    · rw [if_pos hc, ih]
      rfl
    · rw [if_neg hc]

/-- C9 counterexample: the claim's justification "the ace-aware total never
decreases when a card is added" is false — appending an ace to [A, K]
drops the total from 21 to 12 (both aces harden). -/
theorem claim_C9_counterexample :
    calculate_value [Card.A, Card.K] = 21 ∧
    calculate_value ([Card.A, Card.K] ++ [Card.A]) = 12 ∧
    calculate_value ([Card.A, Card.K] ++ [Card.A]) < calculate_value [Card.A, Card.K] := by
  decide

/-- C9 (amended): every status flag is monotone within a round.  `add_card`
recomputes `busted`, and a busted hand stays busted because its hard total
already exceeds 21 and appending cards only grows it (the claim's broader
justification — that the ace-aware total never decreases on a card addition —
is false, see the counterexample); `hit`, `stand`, `double_down` and
`surrender` change at most the current slot and only raise flags; a failed
`split` leaves the game unchanged while a successful one replaces the current
slot with fresh hands and leaves every other slot untouched; dealer play and
settlement never touch the player hands. -/
theorem claim_C9_flags_monotone :
    (∀ (h : PlayerHand) (c : Card),
      h.busted = decide (21 < checkBustTotal h.cards) →
      flagLe h (PlayerHand.add_card h c)) ∧
    (∀ (g g' : PlayerGame) (c : Card), PlayerGame.hit g c = some g' →
      ∀ (j : Nat) (h h' : PlayerHand),
        g.hands[j]? = some h → g'.hands[j]? = some h' → flagLe h h') ∧
    (∀ g g' : PlayerGame, PlayerGame.stand g = some g' →
      ∀ (j : Nat) (h h' : PlayerHand),
        g.hands[j]? = some h → g'.hands[j]? = some h' → flagLe h h') ∧
    (∀ (g g' : PlayerGame) (c : Card) (r : Bool),
      PlayerGame.double_down g c = some (g', r) →
      ∀ (j : Nat) (h h' : PlayerHand),
        g.hands[j]? = some h → g'.hands[j]? = some h' → flagLe h h') ∧
    (∀ (g g' : PlayerGame) (r : Bool), PlayerGame.surrender g = some (g', r) →
      ∀ (j : Nat) (h h' : PlayerHand),
        g.hands[j]? = some h → g'.hands[j]? = some h' → flagLe h h') ∧
    (∀ (g g' : PlayerGame) (c1 c2 : Card),
      PlayerGame.split g c1 c2 = some (g', true) →
      ∀ (j : Nat) (h : PlayerHand), j ≠ g.current_hand_index →
        g.hands[j]? = some h → g'.hands[j]? = some h) ∧
    (∀ (g g' : PlayerGame) (c1 c2 : Card),
      PlayerGame.split g c1 c2 = some (g', false) → g' = g) ∧
    (∀ (g : PlayerGame) (draws : List Card),
      (PlayerGame.dealer_play g draws).hands = g.hands) ∧
    (∀ g : PlayerGame, (PlayerGame.settle_round g).1.hands = g.hands) := by
  refine ⟨?_, ?_, ?_, ?_, ?_, ?_, ?_, ?_, ?_⟩
  · -- add_card
    intro h c hcons
    refine ⟨fun hs => hs, ?_, fun hd => hd, fun hs => hs⟩
    intro hb
    show decide (21 < checkBustTotal (h.cards ++ [c])) = true
    rw [hb] at hcons
    have : 21 < checkBustTotal h.cards := of_decide_eq_true hcons.symm
    simpa using checkBustTotal_append_bust h.cards c this
  · -- hit
    intro g g' c hh j h h' hj hj'
    unfold PlayerGame.hit at hh
    cases hm : g.hands[g.current_hand_index]? with
    | none => rw [hm] at hh; simp at hh
    | some hand =>
      rw [hm] at hh
      by_cases hcond : (!hand.stand && !hand.busted && !hand.surrendered) = true
      · simp only [hcond, if_true] at hh
        obtain rfl := (Option.some.inj hh)
        have h2 : hand.busted = false := by
          revert hcond
          cases hand.stand <;> cases hand.busted <;> cases hand.surrendered <;> simp
        refine flagLe_set g.hands g.current_hand_index hand _ hm ?_ j h h' hj hj'
        by_cases hfive :
            (decide (5 ≤ (PlayerHand.add_card hand c).cards.length) &&
              !(PlayerHand.add_card hand c).busted) = true
        · rw [if_pos hfive]
          exact ⟨fun _ => rfl, fun hb => by simp [h2] at hb, fun hd => hd, fun hs => hs⟩
        · rw [if_neg hfive]
          exact ⟨fun hs => hs, fun hb => by simp [h2] at hb, fun hd => hd, fun hs => hs⟩
      · simp only [hcond, if_false] at hh
        obtain rfl := (Option.some.inj hh)
        rw [hj] at hj'
        obtain rfl : h = h' := Option.some.inj hj'
        exact flagLe_refl h
  · -- stand
    intro g g' hh j h h' hj hj'
    unfold PlayerGame.stand at hh
    cases hm : g.hands[g.current_hand_index]? with
    | none => rw [hm] at hh; simp at hh
    | some hand =>
      rw [hm] at hh
      by_cases hcond : (!hand.busted && !hand.surrendered) = true
      · simp only [hcond, if_true] at hh
        obtain rfl := (Option.some.inj hh)
        refine flagLe_set g.hands g.current_hand_index hand _ hm ?_ j h h' hj hj'
        exact ⟨fun _ => rfl, fun hb => hb, fun hd => hd, fun hs => hs⟩
      · simp only [hcond, if_false] at hh
        obtain rfl := (Option.some.inj hh)
        rw [hj] at hj'
        obtain rfl : h = h' := Option.some.inj hj'
        exact flagLe_refl h
  · -- double_down
    intro g g' c r hh j h h' hj hj'
    unfold PlayerGame.double_down at hh
    cases hm : g.hands[g.current_hand_index]? with
    | none => rw [hm] at hh; simp at hh
    | some hand =>
      rw [hm] at hh
      by_cases hcond : (!hand.stand && !hand.busted && !hand.surrendered &&
          !hand.doubled && !PlayerHand.is_blackjack hand) = true
      · simp only [hcond, if_true] at hh
        have hpair := Option.some.inj hh
        rw [Prod.mk.injEq] at hpair
        obtain ⟨rfl, rfl⟩ := hpair
        have h2 : hand.busted = false := by
          revert hcond
          cases hand.stand <;> cases hand.busted <;> simp
        refine flagLe_set g.hands g.current_hand_index hand _ hm ?_ j h h' hj hj'
        exact ⟨fun _ => rfl, fun hb => by simp [h2] at hb, fun _ => rfl, fun hs => hs⟩
      · simp only [hcond, if_false] at hh
        have hpair := Option.some.inj hh
        rw [Prod.mk.injEq] at hpair
        obtain ⟨rfl, rfl⟩ := hpair
        rw [hj] at hj'
        obtain rfl : h = h' := Option.some.inj hj'
        exact flagLe_refl h
  · -- surrender
    intro g g' r hh j h h' hj hj'
    unfold PlayerGame.surrender at hh
    cases hm : g.hands[g.current_hand_index]? with
    | none => rw [hm] at hh; simp at hh
    | some hand =>
      rw [hm] at hh
      by_cases hcond : (decide (hand.cards.length = 2) && !hand.stand && !hand.busted) = true
      · simp only [hcond, if_true] at hh
        have hpair := Option.some.inj hh
        rw [Prod.mk.injEq] at hpair
        obtain ⟨rfl, rfl⟩ := hpair
        refine flagLe_set g.hands g.current_hand_index hand _ hm ?_ j h h' hj hj'
        exact ⟨fun _ => rfl, fun hb => hb, fun hd => hd, fun _ => rfl⟩
      · simp only [hcond, if_false] at hh
        have hpair := Option.some.inj hh
        rw [Prod.mk.injEq] at hpair
        obtain ⟨rfl, rfl⟩ := hpair
        rw [hj] at hj'
        obtain rfl : h = h' := Option.some.inj hj'
        exact flagLe_refl h
  · -- split success: other slots unchanged
    intro g g' c1 c2 hh j h hne hj
    unfold PlayerGame.split at hh
    cases hm : g.hands[g.current_hand_index]? with
    | none => rw [hm] at hh; simp at hh
    | some hand =>
      rw [hm] at hh
      match hc : hand.cards with
      | [] => simp only [hc] at hh; simp at hh
      | [a] => simp only [hc] at hh; simp at hh
      | a :: b :: d :: t => simp only [hc] at hh; simp at hh
      | [a, b] =>
        simp only [hc] at hh
        by_cases hcond : (decide (g.hands.length < 4) &&
            (CARD_VALUES a == CARD_VALUES b)) = true
        · simp only [hcond, if_true] at hh
          have hpair := Option.some.inj hh
          rw [Prod.mk.injEq] at hpair
          obtain ⟨rfl, -⟩ := hpair
          have hjlt : j < g.hands.length := by
            rcases List.getElem?_eq_some.mp hj with ⟨hl, _⟩
            exact hl
          show ((g.hands.set g.current_hand_index _) ++ [_])[j]? = some h
          rw [List.getElem?_append]
          have hjlt' : j < (g.hands.set g.current_hand_index
              (PlayerHand.add_card (PlayerHand.init [a] hand.bet true) c1)).length := by
            simpa using hjlt
          rw [if_pos hjlt']
          rw [List.getElem?_set_ne (Ne.symm hne)]
          exact hj
        · simp only [hcond, if_false] at hh
          have hpair := Option.some.inj hh
          rw [Prod.mk.injEq] at hpair
          exact absurd hpair.2 (by simp)
  · -- split failure: game unchanged
    intro g g' c1 c2 hh
    unfold PlayerGame.split at hh
    cases hm : g.hands[g.current_hand_index]? with
    | none => rw [hm] at hh; simp at hh
    | some hand =>
      rw [hm] at hh
      match hc : hand.cards with
      | [] =>
        simp only [hc] at hh
        have hpair := Option.some.inj hh
        rw [Prod.mk.injEq] at hpair
        exact hpair.1.symm
      | [a] =>
        simp only [hc] at hh
        have hpair := Option.some.inj hh
        rw [Prod.mk.injEq] at hpair
        exact hpair.1.symm
      | a :: b :: d :: t =>
        simp only [hc] at hh
        have hpair := Option.some.inj hh
        rw [Prod.mk.injEq] at hpair
        exact hpair.1.symm
      | [a, b] =>
        simp only [hc] at hh
        by_cases hcond : (decide (g.hands.length < 4) &&
            (CARD_VALUES a == CARD_VALUES b)) = true
        · simp only [hcond, if_true] at hh
          have hpair := Option.some.inj hh
          rw [Prod.mk.injEq] at hpair
          exact absurd hpair.2 (by simp)
        · simp only [hcond, if_false] at hh
          have hpair := Option.some.inj hh
          rw [Prod.mk.injEq] at hpair
          exact hpair.1.symm
  · -- dealer play
    intro g draws
    unfold PlayerGame.dealer_play
    rw [dealerLoop_hands]
    rfl
  · -- settlement
    intro g
    rfl

/-- A concretely busted hand [10, 10] + 5 (total 25). -/
def hBustedC9 : PlayerHand :=
  PlayerHand.add_card (PlayerHand.init [Card.n10, Card.n10]) Card.n5

/-- The current hand of `g4exAfter`, namely the busted [10, 9, 5]. -/
def h4exAfter : PlayerHand :=
  (PlayerGame.get_current_hand g4exAfter).getD (PlayerHand.init [])

/-- C9 witness: flag monotonicity applied to a concrete busted hand gaining a
card, and to a concrete `hit` that busts the current hand. -/
theorem claim_C9_flags_monotone_witness :
    flagLe hBustedC9 (PlayerHand.add_card hBustedC9 Card.n2) ∧
    flagLe h4ex h4exAfter :=
  ⟨claim_C9_flags_monotone.1 hBustedC9 Card.n2 rfl,
   claim_C9_flags_monotone.2.1 g4ex g4exAfter Card.n5 rfl 0 h4ex h4exAfter rfl rfl⟩
